import Mathlib

/-!
Shallow embedding of the `cron_parser` package (files `common.py`, `parse.py`,
`explain.py`) and proofs about the claims of its specification.

Modelling conventions:
* Python strings are Lean `String`s; the string primitives the source uses
  (`str.split`, `in`, `isdigit`, `int()`, f-string padding, `repr`) are
  re-implemented below over `String.data` so that everything reduces in the
  kernel.  Only ASCII digits are modelled (Python's `str.isdigit` / `int()`
  additionally accept some non-ASCII digit characters, which no claim uses).
* Python exceptions are modelled as `Except.error` carrying the exception
  message; every `ValueError` site of the source (tuple-unpack failures,
  `int()` conversion failures, `range()` with a zero step, and the explicit
  `raise` statements) becomes an `Except.error` value.
* Field value tuples are `List Int`, matching `int` values in the source.
-/

/-- Python `str.split(ch)` on a single-character separator, over char lists:
keeps empty chunks, `[]` input gives one empty chunk. -/
def splitCharList (p : Char → Bool) : List Char → List (List Char)
  | [] => [[]]
  | c :: rest =>
    let r := splitCharList p rest
    if p c then [] :: r
    else
      match r with
      | h :: t => (c :: h) :: t
      | [] => [[c]]

/-- Python `s.split(c)` for a one-character separator `c` (keeps empty parts). -/
def pySplitOnChar (c : Char) (s : String) : List String :=
  (splitCharList (fun d => d == c) s.data).map String.mk

/-- Python `s.split()` with no argument: split on whitespace runs, dropping
empty tokens. -/
def pySplitWs (s : String) : List String :=
  ((splitCharList Char.isWhitespace s.data).map String.mk).filter
    (fun t => !t.data.isEmpty)

/-- Python `c in s` for a single character. -/
def pyContainsChar (s : String) (c : Char) : Bool :=
  s.data.any (fun d => d == c)

/-- Python `str.isdigit` restricted to ASCII: non-empty and all chars are
decimal digits. -/
def isDigits (s : String) : Bool :=
  !s.data.isEmpty && s.data.all Char.isDigit

/-- Numeric value of a list of ASCII digit characters (used where the source
calls `int()` on a string that already passed `isdigit`). -/
def digitsToNat (l : List Char) : Nat :=
  l.foldl (fun a c => a * 10 + (c.toNat - 48)) 0

/-- Helper for `pyInt`: digits with Python's single-underscore grouping
(an underscore must sit between two digits). Accumulates onto `acc`. -/
def pyIntDigitsCore (acc : Nat) : List Char → Option Nat
  | [] => some acc
  | '_' :: c :: rest =>
    if c.isDigit then pyIntDigitsCore (acc * 10 + (c.toNat - 48)) rest else none
  | ['_'] => none
  | c :: rest =>
    if c.isDigit then pyIntDigitsCore (acc * 10 + (c.toNat - 48)) rest else none

/-- Helper for `pyInt`: a non-empty digit group (underscore grouping allowed). -/
def pyIntOfDigits : List Char → Option Nat
  | [] => none
  | c :: rest =>
    if c.isDigit then pyIntDigitsCore (c.toNat - 48) rest else none

/-- Python `int(s)` on ASCII input with an optional sign; `none` models the
`ValueError` raised on malformed input.  Surrounding whitespace is not
modelled: the strings fed to `int()` by the source come from a whitespace
split and contain none. -/
def pyInt (s : String) : Option Int :=
  match s.data with
  | '+' :: rest => (pyIntOfDigits rest).map (fun n => (n : Int))
  | '-' :: rest => (pyIntOfDigits rest).map (fun n => -(n : Int))
  | l => (pyIntOfDigits l).map (fun n => (n : Int))

/-- List of values of Python `range(start, stop, step)` for a positive `step`
(for `stop ≤ start` the list is empty, as in Python). -/
def pyRangeList (start stop : Int) (step : Nat) : List Int :=
  let n : Nat := (stop - start).toNat
  let count := (n + step - 1) / step
  (List.range count).map (fun (i : Nat) => start + (step : Int) * (i : Int))

/-- Python `range(start, stop, step)` for a non-negative `step`: a step of `0`
raises `ValueError` (the source only ever builds steps from digit strings, so
negative steps cannot occur). -/
def pyRange (start stop : Int) (step : Nat) : Except String (List Int) :=
  if step = 0 then .error "range() arg 3 must not be zero"
  else .ok (pyRangeList start stop step)

/-- Escape of one character inside a Python `repr` of a string quoted with
`q`.  Control characters other than newline, carriage return and tab are not
modelled (no claim uses them). -/
def pyReprEscape (q : Char) (c : Char) : String :=
  if c == '\\' then "\\\\"
  else if c == q then String.mk ['\\', q]
  else if c == '\n' then "\\n"
  else if c == '\r' then "\\r"
  else if c == '\t' then "\\t"
  else String.mk [c]

/-- Python `repr` of a string: single-quoted, switching to double quotes when
the text holds a single quote but no double quote. -/
def pyRepr (s : String) : String :=
  let hasSingle := s.data.any (fun d => d == '\'')
  let hasDouble := s.data.any (fun d => d == '"')
  let q : Char := if hasSingle && !hasDouble then '"' else '\''
  String.mk [q] ++ String.join (s.data.map (pyReprEscape q)) ++ String.mk [q]

/-! ## common.py -/

/-- `FIELD_RANGES["minutes"]` = `tuple(range(60))`. -/
def FIELD_RANGES_minutes : List Int := (List.range 60).map (fun n => (n : Int))

/-- `FIELD_RANGES["hours"]` = `tuple(range(24))`. -/
def FIELD_RANGES_hours : List Int := (List.range 24).map (fun n => (n : Int))

/-- `FIELD_RANGES["day_of_month"]` = `tuple(range(1, 32))`. -/
def FIELD_RANGES_day_of_month : List Int :=
  (List.range 31).map (fun n => ((n : Int) + 1))

/-- `FIELD_RANGES["month"]` = `tuple(range(1, 13))`. -/
def FIELD_RANGES_month : List Int := (List.range 12).map (fun n => ((n : Int) + 1))

/-- `FIELD_RANGES["day_of_week"]` = `tuple(range(7))`. -/
def FIELD_RANGES_day_of_week : List Int := (List.range 7).map (fun n => (n : Int))

/-- `DAY_NAME_TO_INDEX` from `common.py` (an association list models the
Python dict; keys are distinct so lookup semantics coincide). -/
def DAY_NAME_TO_INDEX : List (String × Int) :=
  [("SUN", 0), ("MON", 1), ("TUE", 2), ("WED", 3), ("THU", 4), ("FRI", 5), ("SAT", 6)]

/-- `MONTH_NAME_TO_INDEX` from `common.py`. -/
def MONTH_NAME_TO_INDEX : List (String × Int) :=
  [("JAN", 1), ("FEB", 2), ("MAR", 3), ("APR", 4), ("MAY", 5), ("JUN", 6),
   ("JUL", 7), ("AUG", 8), ("SEP", 9), ("OCT", 10), ("NOV", 11), ("DEC", 12)]

/-- `CronSchedule` from `common.py`: the five expanded cron fields. -/
structure CronSchedule where
  minute : List Int
  hour : List Int
  day_of_month : List Int
  month : List Int
  day_of_week : List Int
deriving DecidableEq, Repr

/-- The `dom` property alias of `CronSchedule`. -/
def CronSchedule.dom (s : CronSchedule) : List Int := s.day_of_month

/-- The `dow` property alias of `CronSchedule`. -/
def CronSchedule.dow (s : CronSchedule) : List Int := s.day_of_week

/-! ## parse.py -/

/-- Message of the `ValueError` built by `_invalid_cron_expression`. -/
def _invalid_cron_expression (expr : String) : String :=
  pyRepr expr ++ " is not valid cron expression."

/-- `_expr_to_parts` from `parse.py`: split a token into base expression and
integer step (default 1).  A token holding more than one `/` makes the tuple
unpacking raise `ValueError`; a non-digit step raises via the explicit check. -/
def _expr_to_parts (expr : String) : Except String (String × Nat) :=
  if pyContainsChar expr '/' then
    match pySplitOnChar '/' expr with
    | [value_expr, step_expr] =>
      if isDigits step_expr then .ok (value_expr, digitsToNat step_expr.data)
      else .error (_invalid_cron_expression expr)
    | _ => .error "too many values to unpack (expected 2)"
  else .ok (expr, 1)

/-- Substitution through a transform map: `str(transform_map[s])` when the key
is present, the input otherwise. -/
def aliasSub (tm : List (String × Int)) (s : String) : String :=
  match tm.lookup s with
  | some v => toString v
  | none => s

/-- `_parse_part` from `parse.py`: interpret a single cron token. -/
def _parse_part (part : String) (allowed : List Int) (tm : List (String × Int)) :
    Except String (List Int) :=
  match _expr_to_parts part with
  | .error m => .error m
  | .ok (ve0, step) =>
    if allowed.length ≤ step then .error (_invalid_cron_expression part)
    else
      if isDigits (aliasSub tm ve0) then
        if step ≠ 1 then .error (_invalid_cron_expression part)
        else if allowed.contains ((digitsToNat (aliasSub tm ve0).data : Nat) : Int) then
          .ok [((digitsToNat (aliasSub tm ve0).data : Nat) : Int)]
        else .error (_invalid_cron_expression part)
      else if aliasSub tm ve0 == "*" then
        pyRange (allowed.headD 0) (allowed.getLastD 0 + 1) step
      else if pyContainsChar (aliasSub tm ve0) '-' then
        match pySplitOnChar '-' (aliasSub tm ve0) with
        | [s1, s2] =>
          match pyInt (aliasSub tm s1), pyInt (aliasSub tm s2) with
          | some a, some b =>
            if allowed.contains a && allowed.contains b then
              pyRange a (b + 1) step
            else .error (_invalid_cron_expression part)
          | _, _ => .error "invalid literal for int() with base 10"
        | _ => .error "too many values to unpack (expected 2)"
      else .error (_invalid_cron_expression part)

/-- Insertion into a strictly-sorted list, dropping duplicates.  Folding this
over all expanded parts models the accumulation into a Python `set` followed
by `tuple(sorted(result))`. -/
def insertSortedUnique (x : Int) : List Int → List Int
  | [] => [x]
  | y :: ys =>
    if x < y then x :: y :: ys
    else if x = y then y :: ys
    else y :: insertSortedUnique x ys

/-- `result.update(values)` of `_parse_expression`, on the sorted-set model. -/
def setUnion (acc : List Int) (vs : List Int) : List Int :=
  vs.foldl (fun a v => insertSortedUnique v a) acc

/-- The `for part in parts` loop body of `_parse_expression`: expand each part
and take the union; the first failing part aborts the loop. -/
def parsePartsLoop (allowed : List Int) (tm : List (String × Int)) :
    List String → List Int → Except String (List Int)
  | [], acc => .ok acc
  | p :: rest, acc =>
    match _parse_part p allowed tm with
    | .ok vs => parsePartsLoop allowed tm rest (setUnion acc vs)
    | .error m => .error m

/-- `_parse_expression` from `parse.py`: expand a comma-delimited cron field
into its sorted tuple of integers; any `ValueError` from a part is re-wrapped
with the field text. -/
def _parse_expression (expr : String) (allowed : List Int)
    (tm : List (String × Int)) : Except String (List Int) :=
  match parsePartsLoop allowed tm (pySplitOnChar ',' expr) [] with
  | .ok res => .ok res
  | .error _ => .error (_invalid_cron_expression expr)

/-- The five `_parse_expression` calls of `parse`, sequenced as in the source
(the `CronSchedule(...)` constructor call). -/
def parseFields (mi hr dm mo dw : String) : Except String CronSchedule :=
  match _parse_expression mi FIELD_RANGES_minutes [] with
  | .error m => .error m
  | .ok minute =>
    match _parse_expression hr FIELD_RANGES_hours [] with
    | .error m => .error m
    | .ok hour =>
      match _parse_expression dm FIELD_RANGES_day_of_month [] with
      | .error m => .error m
      | .ok day_of_month =>
        match _parse_expression mo FIELD_RANGES_month MONTH_NAME_TO_INDEX with
        | .error m => .error m
        | .ok month =>
          match _parse_expression dw FIELD_RANGES_day_of_week DAY_NAME_TO_INDEX with
          | .error m => .error m
          | .ok day_of_week =>
            .ok ⟨minute, hour, day_of_month, month, day_of_week⟩

/-- `parse` from `parse.py`: split on whitespace, require five fields, expand
each field, and normalize every failure to the `_invalid_cron_expression`
`ValueError` for the full original expression. -/
def parse (expression : String) : Except String CronSchedule :=
  match pySplitWs expression with
  | [mi, hr, dm, mo, dw] =>
    match parseFields mi hr dm mo dw with
    | .ok sch => .ok sch
    | .error _ => .error (_invalid_cron_expression expression)
  | _ => .error (_invalid_cron_expression expression)

/-- A token is a reversed range when its base (after alias substitution on
both endpoints) is `start-end` with `end < start`; the only token shape that
`_parse_part` expands to an empty tuple. -/
def isReversedRange (part : String) (tm : List (String × Int)) : Bool :=
  match _expr_to_parts part with
  | .error _ => false
  | .ok (ve0, _) =>
    if isDigits (aliasSub tm ve0) then false
    else if aliasSub tm ve0 == "*" then false
    else
      match pySplitOnChar '-' (aliasSub tm ve0) with
      | [s1, s2] =>
        match pyInt (aliasSub tm s1), pyInt (aliasSub tm s2) with
        | some a, some b => decide (b < a)
        | _, _ => false
      | _ => false

/-! ## explain.py -/

/-- `_WEEKDAYS` = `tuple(range(1, 6))`. -/
def _WEEKDAYS : List Int := [1, 2, 3, 4, 5]

/-- `_MAX_DISCRETE_TIMES` from `explain.py`. -/
def _MAX_DISCRETE_TIMES : Nat := 3

/-- `DAY_INDEX_TO_NAME` lookup from `common.py`.  The Python dict raises
`KeyError` outside 0..6; all call sites pass parsed day-of-week values, so the
default result for other keys is irrelevant and modelled as `""`. -/
def dayIndexToName (n : Int) : String :=
  if n = 0 then "Sunday" else if n = 1 then "Monday" else if n = 2 then "Tuesday"
  else if n = 3 then "Wednesday" else if n = 4 then "Thursday"
  else if n = 5 then "Friday" else if n = 6 then "Saturday" else ""

/-- `MONTH_INDEX_TO_NAME` lookup from `common.py` (same `KeyError` caveat as
`dayIndexToName`). -/
def monthIndexToName (n : Int) : String :=
  if n = 1 then "January" else if n = 2 then "February" else if n = 3 then "March"
  else if n = 4 then "April" else if n = 5 then "May" else if n = 6 then "June"
  else if n = 7 then "July" else if n = 8 then "August" else if n = 9 then "September"
  else if n = 10 then "October" else if n = 11 then "November"
  else if n = 12 then "December" else ""

/-- Python `f"{n:02d}"`: decimal rendering zero-padded to width two. -/
def pad2 (n : Int) : String :=
  let s := toString n
  if s.data.length < 2 then "0" ++ s else s

/-- `_format_time` from `explain.py`. -/
def _format_time (hours minutes : Int) : String :=
  pad2 hours ++ ":" ++ pad2 minutes

/-- `ORDINAL_SUFFIXES`-based `_as_ordinal` from `explain.py`: 10..20 take
`th`; otherwise the suffix follows the last digit. -/
def _as_ordinal (n : Int) : String :=
  if 10 ≤ n ∧ n < 21 then toString n ++ "th"
  else
    let lastDigit := n % 10
    if lastDigit = 1 then toString n ++ "st"
    else if lastDigit = 2 then toString n ++ "nd"
    else if lastDigit = 3 then toString n ++ "rd"
    else toString n ++ "th"

/-- `_join_list` from `explain.py`: comma-separated with a final `and`. -/
def _join_list : List String → String
  | [] => ""
  | [x] => x
  | [x, y] => x ++ " and " ++ y
  | x :: y :: rest => x ++ ", " ++ _join_list (y :: rest)

/-- Plain `", ".join(items)` (used by `_summarize_full_range_time`). -/
def commaJoin : List String → String
  | [] => ""
  | [x] => x
  | x :: rest => x ++ ", " ++ commaJoin rest

/-- Plain `" ".join(items)`. -/
def spaceJoin : List String → String
  | [] => ""
  | [x] => x
  | x :: rest => x ++ " " ++ spaceJoin rest

/-- Python `str.strip()`. -/
def pyStrip (s : String) : String :=
  String.mk (((s.data.dropWhile Char.isWhitespace).reverse.dropWhile
    Char.isWhitespace).reverse)

/-- Boolean list-prefix test (Python `str.startswith` over char lists). -/
def listStarts : List Char → List Char → Bool
  | [], _ => true
  | _, [] => false
  | a :: ps, b :: ss => a == b && listStarts ps ss

/-- Python `s.startswith(p)`. -/
def pyStartsWith (s p : String) : Bool := listStarts p.data s.data

/-- `_is_contiguous` from `explain.py`: consecutive pairwise differences are
all exactly one (vacuously true for empty and singleton tuples). -/
def _is_contiguous : List Int → Bool
  | [] => true
  | [_] => true
  | a :: b :: rest => (b - a == 1) && _is_contiguous (b :: rest)

/-- The pairwise differences of a list (`itertools.pairwise` image). -/
def pairDiffs : List Int → List Int
  | a :: b :: rest => (b - a) :: pairDiffs (b :: rest)
  | _ => []

/-- `_uniform_step` from `explain.py`: `none` for the empty tuple, `1` for a
singleton, otherwise the common pairwise difference when it is unique. -/
def _uniform_step (values : List Int) : Option Int :=
  match values with
  | [] => none
  | [_] => some 1
  | _ =>
    match pairDiffs values with
    | [] => none
    | x :: xs => if xs.all (fun d => d == x) then some x else none

/-- `_is_full_range` from `explain.py`. -/
def _is_full_range (values allowed : List Int) : Bool := values == allowed

/-- `_is_full_stepped_cover` from `explain.py`.  Callers always guard the step
against zero (Python truthiness short-circuit), so the `range(0, last+1, step)`
it builds never raises; a negative step yields the empty sequence, as in
Python. -/
def _is_full_stepped_cover (values allowed : List Int) (step : Int) : Bool :=
  match values with
  | [] => false
  | v :: _ =>
    if v != 0 then false
    else
      let last := allowed.getLastD 0
      let seq : List Int := if 0 < step then pyRangeList 0 (last + 1) step.toNat else []
      values == seq

/-- Tail of `_summarize_full_range_time` after the uniform-step check: the
contiguity test, the single-minute branch and the discrete-list fallback. -/
def fullRangeTimeRest (minute : List Int) : String :=
  if _is_contiguous minute then "Every minute"
  else
    match minute with
    | [m] => "At " ++ pad2 m ++ " every hour"
    | _ =>
      "At " ++ commaJoin ((minute.dropLast).map (fun m => toString m)) ++ " and " ++
        toString (minute.getLastD 0) ++ " minute" ++ " every hour"

/-- `_summarize_full_range_time` from `explain.py` (the hour argument of the
source is unused there). -/
def _summarize_full_range_time (minute : List Int) : String :=
  match _uniform_step minute with
  | some s => if 1 < s then "Every " ++ toString s ++ " minutes" else fullRangeTimeRest minute
  | none => fullRangeTimeRest minute

/-- The `"Every {step} hours"` branch of `_summarize_simple_exact_times`:
uniform hour step, truthy, starting at zero and fully covering the hours. -/
def hourStepPhrase (hour : List Int) : Option String :=
  match _uniform_step hour with
  | some s =>
    if s != 0 && hour.headD 0 == 0 && _is_full_stepped_cover hour FIELD_RANGES_hours s then
      some ("Every " ++ toString s ++ " hours")
    else none
  | none => none

/-- `_summarize_simple_exact_times` from `explain.py` (callers guarantee the
minute tuple is a singleton, as the source asserts). -/
def _summarize_simple_exact_times (minute hour : List Int) : Option String :=
  let m := minute.headD 0
  let fromZeroMinute : Option String :=
    if m == 0 && decide (1 < hour.length) then
      match hourStepPhrase hour with
      | some p => some p
      | none =>
        if hour.length ≤ _MAX_DISCRETE_TIMES then
          some ("At " ++ _join_list (hour.map (fun h => _format_time h m)))
        else none
    else none
  match fromZeroMinute with
  | some p => some p
  | none =>
    if hour.length == 1 then some ("At " ++ _format_time (hour.headD 0) m)
    else none

/-- `_summarize_contiguous_times` from `explain.py`. -/
def _summarize_contiguous_times (minute hour : List Int) : String :=
  let between := "Every minute between " ++
    _format_time (hour.headD 0) (minute.headD 0) ++ " and " ++
    _format_time (hour.getLastD 0) (minute.getLastD 0)
  match _uniform_step minute with
  | some s =>
    if 1 < s && decide (1 ≤ hour.length) then
      "Every " ++ toString s ++ " minutes from " ++ _format_time (hour.headD 0) 0 ++
        " to " ++ _format_time (hour.getLastD 0) 59
    else between
  | none => between

/-- `_summarize_uniform_step` from `explain.py` (its minute argument is unused
beyond the assertion). -/
def _summarize_uniform_step (hour : List Int) (step : Int) : Option String :=
  if _is_contiguous hour && decide (1 ≤ hour.length) then
    some ("Every " ++ toString step ++ " minutes from " ++
      _format_time (hour.headD 0) 0 ++ " to " ++ _format_time (hour.getLastD 0) 59)
  else if hour.length ≤ _MAX_DISCRETE_TIMES then
    some ("Every " ++ toString step ++ " minutes in " ++
      _join_list (hour.map (fun h => _format_time h 0 ++ "-" ++ _format_time h 59)))
  else none

/-- The last two branches of `_summarize_time` (contiguous block, then
uniform step, then the empty fallback). -/
def summarizeTimeRest (minute hour : List Int) : String :=
  if _is_contiguous minute && _is_contiguous hour &&
      decide (1 < minute.length) && decide (1 ≤ hour.length) then
    _summarize_contiguous_times minute hour
  else
    match _uniform_step minute with
    | some s =>
      if 1 < s && !hour.isEmpty then
        match _summarize_uniform_step hour s with
        | some x => x
        | none => ""
      else ""
    | none => ""

/-- `_summarize_time` from `explain.py`: priority-ordered choice of the time
phrase. -/
def _summarize_time (minute hour : List Int) : String :=
  if _is_full_range hour FIELD_RANGES_hours && !minute.isEmpty then
    _summarize_full_range_time minute
  else if minute.length == 1 then
    match _summarize_simple_exact_times minute hour with
    | some x => x
    | none => summarizeTimeRest minute hour
  else summarizeTimeRest minute hour

/-- `_summarize_non_full_dow` from `explain.py`, returning the appended
fragment. -/
def _summarize_non_full_dow (dow : List Int) : String :=
  if dow == _WEEKDAYS then "on weekdays"
  else if dow == [0, 6] then "on weekends"
  else
    match dow with
    | [day] => "on " ++ dayIndexToName day
    | _ =>
      if _is_contiguous dow then
        "on " ++ dayIndexToName (dow.headD 0) ++ " to " ++ dayIndexToName (dow.getLastD 0)
      else "on " ++ _join_list (dow.map dayIndexToName)

/-- `_summarize_non_full_dom` from `explain.py`, returning the appended
fragment. -/
def _summarize_non_full_dom (dom month : List Int) : String :=
  match dom with
  | [day] =>
    if _is_full_range month FIELD_RANGES_month then
      "on the " ++ _as_ordinal day ++ " of each month"
    else "on the " ++ _as_ordinal day
  | _ =>
    if _is_contiguous dom then
      "from the " ++ _as_ordinal (dom.headD 0) ++ " to the " ++ _as_ordinal (dom.getLastD 0)
    else if _is_full_range month FIELD_RANGES_month then
      "on the " ++ _join_list (dom.map _as_ordinal) ++ " of each month"
    else "on the " ++ _join_list (dom.map _as_ordinal)

/-- `_summarize_non_full_month` from `explain.py`, returning the appended
fragment. -/
def _summarize_non_full_month (month : List Int) : String :=
  if _is_contiguous month then
    "during " ++ monthIndexToName (month.headD 0) ++ " to " ++
      monthIndexToName (month.getLastD 0)
  else "in " ++ _join_list (month.map monthIndexToName)

/-- `_summarize_calendar` from `explain.py`: qualifier fragments in the fixed
order day-of-week, day-of-month, month, each only when its field is not the
full range. -/
def _summarize_calendar (dom month dow : List Int) : List String :=
  (if !_is_full_range dow FIELD_RANGES_day_of_week then [_summarize_non_full_dow dow] else []) ++
  (if !_is_full_range dom FIELD_RANGES_day_of_month then [_summarize_non_full_dom dom month] else []) ++
  (if !_is_full_range month FIELD_RANGES_month then [_summarize_non_full_month month] else [])

/-- Sentence assembly of `explain` given a schedule: `none` models the
`NotImplementedError` raised when no phrase can be produced. -/
def explainSchedule (sch : CronSchedule) : Option String :=
  let timePhrase := _summarize_time sch.minute sch.hour
  let calendarBits := _summarize_calendar sch.day_of_month sch.month sch.day_of_week
  let sentence :=
    if pyStartsWith timePhrase "At " && calendarBits.isEmpty then
      "Every day at " ++ String.mk (timePhrase.data.drop 3)
    else
      pyStrip (spaceJoin
        ((if timePhrase.data.isEmpty then [] else [timePhrase]) ++
         (if calendarBits.isEmpty then [] else [spaceJoin calendarBits])))
  if sentence.data.isEmpty then none else some (sentence ++ ".")

/-- `explain` from `explain.py` applied to a raw expression string: parse
first (surfacing `parse`'s error unchanged), then build the sentence; the
`NotImplementedError` for an empty sentence carries the message of the
source's f-string. -/
def explain (spec : String) : Except String String :=
  match parse spec with
  | .error m => .error m
  | .ok sch =>
    match explainSchedule sch with
    | some s => .ok s
    | none => .error ("Cannot generate explanation for " ++ spec ++ " right now")

/-! ## Helper lemmas -/

/-- An `Except` value with `isOk = false` is an error. -/
lemma exists_error_of_isOk_false {α : Type} (x : Except String α)
    (h : x.isOk = false) : ∃ m, x = .error m := by
  cases x with
  | error m => exact ⟨m, rfl⟩
  | ok a => simp [Except.isOk, Except.toBool] at h

/-- Length of a positive-step Python range. -/
lemma pyRangeList_length (start stop : Int) (step : Nat) :
    (pyRangeList start stop step).length =
      ((stop - start).toNat + step - 1) / step := by
  unfold pyRangeList
  dsimp only
  rw [List.length_map, List.length_range]

/-- A positive-step Python range is empty exactly when `stop ≤ start`. -/
lemma pyRangeList_eq_nil_iff (start stop : Int) (step : Nat) (hs : step ≠ 0) :
    pyRangeList start stop step = [] ↔ stop ≤ start := by
  rw [← List.length_eq_zero, pyRangeList_length,
    Nat.div_eq_zero_iff (Nat.pos_of_ne_zero hs)]
  omega

/-- `insertSortedUnique` never produces the empty list. -/
lemma insertSortedUnique_ne_nil (x : Int) (l : List Int) :
    insertSortedUnique x l ≠ [] := by
  cases l with
  | nil => simp [insertSortedUnique]
  | cons y ys =>
    unfold insertSortedUnique
    split
    · simp
    · split <;> simp

/-- The head of an insertion is the new element or the old head. -/
lemma head?_insertSortedUnique (x : Int) (l : List Int) :
    (insertSortedUnique x l).head? = some x ∨
      (insertSortedUnique x l).head? = l.head? := by
  cases l with
  | nil => left; rfl
  | cons y ys =>
    unfold insertSortedUnique
    split
    · left; rfl
    · split
      · right; rfl
      · right; rfl

/-- Insertion into a strictly-sorted list keeps it strictly sorted. -/
lemma chain'_insertSortedUnique (x : Int) (l : List Int)
    (h : l.Chain' (· < ·)) : (insertSortedUnique x l).Chain' (· < ·) := by
  induction l with
  | nil => simp [insertSortedUnique]
  | cons y ys ih =>
    unfold insertSortedUnique
    split
    · exact List.chain'_cons.mpr ⟨‹x < y›, h⟩
    · split
      · exact h
      · have hxy : y < x := by
          rename_i hnlt hne
          omega
        have hys : ys.Chain' (· < ·) := h.tail
        rw [List.chain'_cons']
        refine ⟨?_, ih hys⟩
        intro z hz
        rcases head?_insertSortedUnique x ys with hh | hh
        · rw [hh] at hz
          simp only [Option.mem_def, Option.some.injEq] at hz
          omega
        · rw [hh] at hz
          exact (List.chain'_cons'.mp h).1 z hz

/-- `setUnion` of strictly-sorted accumulators is strictly sorted. -/
lemma chain'_setUnion (vs : List Int) :
    ∀ acc : List Int, acc.Chain' (· < ·) → (setUnion acc vs).Chain' (· < ·) := by
  induction vs with
  | nil => intro acc h; exact h
  | cons v vs ih =>
    intro acc h
    have : setUnion acc (v :: vs) = setUnion (insertSortedUnique v acc) vs := rfl
    rw [this]
    exact ih _ (chain'_insertSortedUnique v acc h)

/-- An empty `setUnion` forces both inputs empty. -/
lemma setUnion_eq_nil (vs : List Int) :
    ∀ acc : List Int, setUnion acc vs = [] → acc = [] ∧ vs = [] := by
  induction vs with
  | nil => intro acc h; exact ⟨h, rfl⟩
  | cons v vs ih =>
    intro acc h
    have hstep : setUnion acc (v :: vs) = setUnion (insertSortedUnique v acc) vs := rfl
    rw [hstep] at h
    exact absurd (ih _ h).1 (insertSortedUnique_ne_nil v acc)

/-- The expansion loop of `_parse_expression` preserves strict sortedness of
the accumulator. -/
lemma parsePartsLoop_chain' (allowed : List Int) (tm : List (String × Int)) :
    ∀ (parts : List String) (acc res : List Int), acc.Chain' (· < ·) →
      parsePartsLoop allowed tm parts acc = .ok res → res.Chain' (· < ·) := by
  intro parts
  induction parts with
  | nil =>
    intro acc res h hp
    simp only [parsePartsLoop, Except.ok.injEq] at hp
    exact hp ▸ h
  | cons p rest ih =>
    intro acc res h hp
    unfold parsePartsLoop at hp
    cases hpp : _parse_part p allowed tm with
    | ok vs =>
      rw [hpp] at hp
      exact ih _ _ (chain'_setUnion vs acc h) hp
    | error m => rw [hpp] at hp; cases hp

/-- A successfully expanded field is strictly ascending. -/
lemma _parse_expression_chain' (expr : String) (allowed : List Int)
    (tm : List (String × Int)) (res : List Int)
    (h : _parse_expression expr allowed tm = .ok res) : res.Chain' (· < ·) := by
  unfold _parse_expression at h
  cases hl : parsePartsLoop allowed tm (pySplitOnChar ',' expr) [] with
  | ok r =>
    rw [hl] at h
    injection h with h
    exact h ▸ parsePartsLoop_chain' allowed tm _ [] r List.chain'_nil hl
  | error m => rw [hl] at h; cases h

/-- Every error surfaced by `parse` carries the normalized message for the
full original expression. -/
lemma parse_error_msg (e m : String) (h : parse e = .error m) :
    m = _invalid_cron_expression e := by
  unfold parse at h
  split at h
  · split at h
    · cases h
    · injection h with h; exact h.symm
  · injection h with h; exact h.symm

/-- Inversion of a successful `parse`: the expression splits into exactly five
fields and each field expands successfully to the corresponding component. -/
lemma parse_ok_inv (e : String) (sch : CronSchedule) (h : parse e = .ok sch) :
    ∃ mi hr dm mo dw, pySplitWs e = [mi, hr, dm, mo, dw] ∧
      _parse_expression mi FIELD_RANGES_minutes [] = .ok sch.minute ∧
      _parse_expression hr FIELD_RANGES_hours [] = .ok sch.hour ∧
      _parse_expression dm FIELD_RANGES_day_of_month [] = .ok sch.day_of_month ∧
      _parse_expression mo FIELD_RANGES_month MONTH_NAME_TO_INDEX = .ok sch.month ∧
      _parse_expression dw FIELD_RANGES_day_of_week DAY_NAME_TO_INDEX = .ok sch.day_of_week := by
  unfold parse at h
  split at h
  case _ mi hr dm mo dw heq =>
    refine ⟨mi, hr, dm, mo, dw, heq, ?_⟩
    split at h
    case _ sch' hpf =>
      injection h with h
      subst h
      unfold parseFields at hpf
      cases h1 : _parse_expression mi FIELD_RANGES_minutes [] with
      | error m => rw [h1] at hpf; cases hpf
      | ok minute =>
        rw [h1] at hpf
        cases h2 : _parse_expression hr FIELD_RANGES_hours [] with
        | error m => rw [h2] at hpf; cases hpf
        | ok hour =>
          rw [h2] at hpf
          cases h3 : _parse_expression dm FIELD_RANGES_day_of_month [] with
          | error m => rw [h3] at hpf; cases hpf
          | ok day_of_month =>
            rw [h3] at hpf
            cases h4 : _parse_expression mo FIELD_RANGES_month MONTH_NAME_TO_INDEX with
            | error m => rw [h4] at hpf; cases hpf
            | ok month =>
              rw [h4] at hpf
              cases h5 : _parse_expression dw FIELD_RANGES_day_of_week DAY_NAME_TO_INDEX with
              | error m => rw [h5] at hpf; cases hpf
              | ok day_of_week =>
                rw [h5] at hpf
                dsimp only at hpf
                injection hpf with hpf
                subst hpf
                exact ⟨rfl, rfl, rfl, rfl, rfl⟩
    case _ => cases h
  case _ => cases h

/-- A token that `_parse_part` expands to the empty tuple must be a reversed
range (the hypothesis on `allowed` holds for all five field ranges: the head
does not exceed the last element). -/
lemma _parse_part_ok_nil (part : String) (allowed : List Int)
    (tm : List (String × Int)) (hal : allowed.headD 0 ≤ allowed.getLastD 0)
    (h : _parse_part part allowed tm = .ok []) : isReversedRange part tm = true := by
  unfold _parse_part at h
  cases hep : _expr_to_parts part with
  | error m => rw [hep] at h; cases h
  | ok ps =>
    obtain ⟨ve0, step⟩ := ps
    rw [hep] at h
    dsimp only at h
    unfold isReversedRange
    rw [hep]
    dsimp only
    by_cases hlen : allowed.length ≤ step
    · rw [if_pos hlen] at h; cases h
    · rw [if_neg hlen] at h
      by_cases hd : isDigits (aliasSub tm ve0) = true
      · rw [if_pos hd] at h
        split at h
        · cases h
        · split at h
          · injection h with h; cases h
          · cases h
      · rw [if_neg hd] at h
        rw [if_neg hd]
        by_cases hstar : (aliasSub tm ve0 == "*") = true
        · rw [if_pos hstar] at h
          unfold pyRange at h
          by_cases hs : step = 0
          · rw [if_pos hs] at h; cases h
          · rw [if_neg hs] at h
            injection h with h
            rw [pyRangeList_eq_nil_iff _ _ _ hs] at h
            omega
        · rw [if_neg hstar] at h
          rw [if_neg hstar]
          by_cases hcont : pyContainsChar (aliasSub tm ve0) '-' = true
          · rw [if_pos hcont] at h
            cases hsp : pySplitOnChar '-' (aliasSub tm ve0) with
            | nil => rw [hsp] at h; dsimp only at h; cases h
            | cons s1 t =>
              cases t with
              | nil => rw [hsp] at h; dsimp only at h; cases h
              | cons s2 t2 =>
                cases t2 with
                | cons s3 t3 => rw [hsp] at h; dsimp only at h; cases h
                | nil =>
                  rw [hsp] at h
                  dsimp only at h ⊢
                  cases hp1 : pyInt (aliasSub tm s1) with
                  | none =>
                    cases hp2 : pyInt (aliasSub tm s2) with
                    | none => rw [hp1, hp2] at h; dsimp only at h; cases h
                    | some b => rw [hp1, hp2] at h; dsimp only at h; cases h
                  | some a =>
                    cases hp2 : pyInt (aliasSub tm s2) with
                    | none => rw [hp1, hp2] at h; dsimp only at h; cases h
                    | some b =>
                      rw [hp1, hp2] at h
                      dsimp only at h ⊢
                      by_cases hc : (allowed.contains a && allowed.contains b) = true
                      · rw [if_pos hc] at h
                        unfold pyRange at h
                        by_cases hs : step = 0
                        · rw [if_pos hs] at h; cases h
                        · rw [if_neg hs] at h
                          injection h with h
                          rw [pyRangeList_eq_nil_iff _ _ _ hs] at h
                          simp only [decide_eq_true_eq]
                          omega
                      · rw [if_neg hc] at h; cases h
          · rw [if_neg hcont] at h; cases h

/-- If the expansion loop returns the empty set, the accumulator was empty and
every token in the remaining parts is a reversed range. -/
lemma parsePartsLoop_ok_nil (allowed : List Int) (tm : List (String × Int))
    (hal : allowed.headD 0 ≤ allowed.getLastD 0) :
    ∀ (parts : List String) (acc : List Int),
      parsePartsLoop allowed tm parts acc = .ok [] →
      acc = [] ∧ ∀ p ∈ parts, isReversedRange p tm = true := by
  intro parts
  induction parts with
  | nil =>
    intro acc h
    simp only [parsePartsLoop, Except.ok.injEq] at h
    exact ⟨h, by simp⟩
  | cons p rest ih =>
    intro acc h
    unfold parsePartsLoop at h
    cases hpp : _parse_part p allowed tm with
    | error m => rw [hpp] at h; cases h
    | ok vs =>
      rw [hpp] at h
      obtain ⟨hu, hrest⟩ := ih _ h
      obtain ⟨hacc, hvs⟩ := setUnion_eq_nil vs acc hu
      refine ⟨hacc, ?_⟩
      intro q hq
      rcases List.mem_cons.mp hq with hq | hq
      · subst hq
        exact _parse_part_ok_nil q allowed tm hal (hvs ▸ hpp)
      · exact hrest q hq

/-- A field that expands successfully to the empty tuple consists solely of
reversed-range tokens. -/
lemma _parse_expression_ok_nil (expr : String) (allowed : List Int)
    (tm : List (String × Int)) (hal : allowed.headD 0 ≤ allowed.getLastD 0)
    (h : _parse_expression expr allowed tm = .ok []) :
    ∀ p ∈ pySplitOnChar ',' expr, isReversedRange p tm = true := by
  unfold _parse_expression at h
  cases hl : parsePartsLoop allowed tm (pySplitOnChar ',' expr) [] with
  | ok r =>
    rw [hl] at h
    injection h with h
    subst h
    exact (parsePartsLoop_ok_nil allowed tm hal _ [] hl).2
  | error m => rw [hl] at h; cases h

/-- A map of a strictly increasing function over `List.range` is a strictly
ascending chain. -/
lemma chain'_lt_map_range (f : Nat → Int) (hf : ∀ m : Nat, f m < f (m + 1)) :
    ∀ n : Nat, ((List.range n).map f).Chain' (· < ·) := by
  intro n
  rw [List.chain'_map]
  cases n with
  | zero => simp
  | succ k =>
    rw [List.chain'_range_succ]
    intro m hm
    exact hf m

/-! ## Claim theorems -/

/-- C2: for each of the five cron fields, expanding the token `*` (with no
step) yields exactly that field's full allowed range — `[0,59]` for minute,
`[0,23]` for hour, `[1,31]` for day of month, `[1,12]` for month, `[0,6]` for
day of week — strictly ascending, hence sorted with no duplicates. -/
theorem C2_star_expands_full_range :
    (_parse_part "*" FIELD_RANGES_minutes [] = .ok FIELD_RANGES_minutes ∧
      List.Chain' (· < ·) FIELD_RANGES_minutes) ∧
    (_parse_part "*" FIELD_RANGES_hours [] = .ok FIELD_RANGES_hours ∧
      List.Chain' (· < ·) FIELD_RANGES_hours) ∧
    (_parse_part "*" FIELD_RANGES_day_of_month [] = .ok FIELD_RANGES_day_of_month ∧
      List.Chain' (· < ·) FIELD_RANGES_day_of_month) ∧
    (_parse_part "*" FIELD_RANGES_month MONTH_NAME_TO_INDEX = .ok FIELD_RANGES_month ∧
      List.Chain' (· < ·) FIELD_RANGES_month) ∧
    (_parse_part "*" FIELD_RANGES_day_of_week DAY_NAME_TO_INDEX = .ok FIELD_RANGES_day_of_week ∧
      List.Chain' (· < ·) FIELD_RANGES_day_of_week) := by
  refine ⟨⟨rfl, ?_⟩, ⟨rfl, ?_⟩, ⟨rfl, ?_⟩, ⟨rfl, ?_⟩, ⟨rfl, ?_⟩⟩
  · exact chain'_lt_map_range (fun n => (n : Int)) (by intro m; dsimp only; omega) 60
  · exact chain'_lt_map_range (fun n => (n : Int)) (by intro m; dsimp only; omega) 24
  · exact chain'_lt_map_range (fun n => ((n : Int) + 1)) (by intro m; dsimp only; omega) 31
  · exact chain'_lt_map_range (fun n => ((n : Int) + 1)) (by intro m; dsimp only; omega) 12
  · exact chain'_lt_map_range (fun n => (n : Int)) (by intro m; dsimp only; omega) 7

/-- C3: a field step of `0` always makes `_parse_part` fail, a step at least
the length of the allowed range fails with the standard error, and at the
expression level both `*/0 * * * *` and `*/65 * * * *` are rejected with the
normalized `InvalidExpression` message. -/
theorem C3_step_rejection :
    (∀ (part ve : String) (allowed : List Int) (tm : List (String × Int)),
        _expr_to_parts part = .ok (ve, 0) →
        ∃ m, _parse_part part allowed tm = .error m) ∧
    (∀ (part ve : String) (s : Nat) (allowed : List Int) (tm : List (String × Int)),
        _expr_to_parts part = .ok (ve, s) → allowed.length ≤ s →
        _parse_part part allowed tm = .error (_invalid_cron_expression part)) ∧
    parse "*/0 * * * *" = .error (_invalid_cron_expression "*/0 * * * *") ∧
    parse "*/65 * * * *" = .error (_invalid_cron_expression "*/65 * * * *") := by
  refine ⟨?_, ?_, rfl, rfl⟩
  · intro part ve allowed tm hep
    apply exists_error_of_isOk_false
    unfold _parse_part
    rw [hep]
    dsimp only
    by_cases hlen : allowed.length ≤ 0
    · rw [if_pos hlen]; rfl
    · rw [if_neg hlen]
      by_cases hd : isDigits (aliasSub tm ve) = true
      · rw [if_pos hd, if_pos (by decide : (0 : Nat) ≠ 1)]; rfl
      · rw [if_neg hd]
        by_cases hstar : (aliasSub tm ve == "*") = true
        · rw [if_pos hstar]; unfold pyRange; rw [if_pos rfl]; rfl
        · rw [if_neg hstar]
          by_cases hcont : pyContainsChar (aliasSub tm ve) '-' = true
          · rw [if_pos hcont]
            cases hsp : pySplitOnChar '-' (aliasSub tm ve) with
            | nil => rfl
            | cons s1 t =>
              cases t with
              | nil => rfl
              | cons s2 t2 =>
                cases t2 with
                | cons s3 t3 => rfl
                | nil =>
                  dsimp only
                  cases pyInt (aliasSub tm s1) with
                  | none => cases pyInt (aliasSub tm s2) <;> rfl
                  | some a =>
                    cases pyInt (aliasSub tm s2) with
                    | none => rfl
                    | some b =>
                      dsimp only
                      by_cases hc : (allowed.contains a && allowed.contains b) = true
                      · rw [if_pos hc]; unfold pyRange; rw [if_pos rfl]; rfl
                      · rw [if_neg hc]; rfl
          · rw [if_neg hcont]; rfl
  · intro part ve s allowed tm hep hlen
    unfold _parse_part
    rw [hep]
    dsimp only
    rw [if_pos hlen]

/-- Witness for C3 at the concrete token `*/0` over the minutes range and at
`*/65` (65 exceeds the 60-element minutes range). -/
theorem C3_step_rejection_witness :
    _expr_to_parts "*/0" = .ok ("*", 0) ∧
    (_parse_part "*/0" FIELD_RANGES_minutes []).isOk = false ∧
    _expr_to_parts "*/65" = .ok ("*", 65) ∧
    FIELD_RANGES_minutes.length ≤ 65 ∧
    _parse_part "*/65" FIELD_RANGES_minutes [] =
      .error (_invalid_cron_expression "*/65") := by
  refine ⟨rfl, ?_, rfl, by decide, ?_⟩
  · obtain ⟨m, hm⟩ := C3_step_rejection.1 "*/0" "*" FIELD_RANGES_minutes [] rfl
    rw [hm]; rfl
  · exact C3_step_rejection.2.1 "*/65" "*" 65 FIELD_RANGES_minutes [] rfl (by decide)

/-- C4: an expression whose whitespace split does not have exactly five
tokens fails at once, and every error `parse` raises carries the repr-quoted
original expression followed by " is not valid cron expression.". -/
theorem C4_field_count_and_error_message :
    (∀ e : String, (pySplitWs e).length ≠ 5 →
        parse e = .error (_invalid_cron_expression e)) ∧
    (∀ e m : String, parse e = .error m → m = _invalid_cron_expression e) := by
  constructor
  · intro e hlen
    unfold parse
    split
    · rename_i mi hr dm mo dw heq
      rw [heq] at hlen
      simp at hlen
    · rfl
  · exact parse_error_msg

/-- Witness for C4 at the four-token expression `0 0 1 1` and the message
shape at a failing input. -/
theorem C4_field_count_witness :
    (pySplitWs "0 0 1 1").length ≠ 5 ∧
    parse "0 0 1 1" = .error (_invalid_cron_expression "0 0 1 1") ∧
    _invalid_cron_expression "0 0 1 1" = "'0 0 1 1' is not valid cron expression." := by
  refine ⟨by decide, ?_, rfl⟩
  exact C4_field_count_and_error_message.1 "0 0 1 1" (by decide)

/-- C5: every field of a successfully parsed schedule is strictly ascending
(hence free of repeated values). -/
theorem C5_fields_strictly_ascending (e : String) (sch : CronSchedule)
    (h : parse e = .ok sch) :
    sch.minute.Chain' (· < ·) ∧ sch.hour.Chain' (· < ·) ∧
    sch.day_of_month.Chain' (· < ·) ∧ sch.month.Chain' (· < ·) ∧
    sch.day_of_week.Chain' (· < ·) := by
  obtain ⟨mi, hr, dm, mo, dw, hsp, h1, h2, h3, h4, h5⟩ := parse_ok_inv e sch h
  exact ⟨_parse_expression_chain' _ _ _ _ h1, _parse_expression_chain' _ _ _ _ h2,
    _parse_expression_chain' _ _ _ _ h3, _parse_expression_chain' _ _ _ _ h4,
    _parse_expression_chain' _ _ _ _ h5⟩

/-- Witness for C5 at `1-5,3-8 * * * *`, whose overlapping sub-tokens
collapse into the strictly ascending minute tuple `1..8`. -/
theorem C5_fields_strictly_ascending_witness :
    parse "1-5,3-8 * * * *" = .ok ⟨[1, 2, 3, 4, 5, 6, 7, 8], FIELD_RANGES_hours,
      FIELD_RANGES_day_of_month, FIELD_RANGES_month, FIELD_RANGES_day_of_week⟩ ∧
    List.Chain' (· < ·) ([1, 2, 3, 4, 5, 6, 7, 8] : List Int) := by
  refine ⟨rfl, ?_⟩
  exact (C5_fields_strictly_ascending "1-5,3-8 * * * *" _ rfl).1

/-- C8: a token whose base resolves (after alias substitution) to an
all-digits literal fails whenever its explicit step differs from 1, while
with step exactly 1 and an in-range value it expands to the singleton
containing that value. -/
theorem C8_literal_step_rules :
    (∀ (part ve : String) (s : Nat) (allowed : List Int) (tm : List (String × Int)),
        _expr_to_parts part = .ok (ve, s) →
        isDigits (aliasSub tm ve) = true → s ≠ 1 →
        ∃ m, _parse_part part allowed tm = .error m) ∧
    (∀ (part ve : String) (allowed : List Int) (tm : List (String × Int)),
        _expr_to_parts part = .ok (ve, 1) →
        isDigits (aliasSub tm ve) = true → 1 < allowed.length →
        ((digitsToNat (aliasSub tm ve).data : Nat) : Int) ∈ allowed →
        _parse_part part allowed tm =
          .ok [((digitsToNat (aliasSub tm ve).data : Nat) : Int)]) := by
  constructor
  · intro part ve s allowed tm hep hd hs
    apply exists_error_of_isOk_false
    unfold _parse_part
    rw [hep]
    dsimp only
    by_cases hlen : allowed.length ≤ s
    · rw [if_pos hlen]; rfl
    · rw [if_neg hlen, if_pos hd, if_pos hs]; rfl
  · intro part ve allowed tm hep hd hlen hmem
    unfold _parse_part
    rw [hep]
    dsimp only
    rw [if_neg (by omega : ¬ allowed.length ≤ 1), if_pos hd,
      if_neg (by simp : ¬ (1 : Nat) ≠ 1),
      if_pos (List.elem_iff.mpr hmem)]

/-- Witness for C8: `5/2` is rejected over the minutes range while the plain
literal `5` expands to the singleton. -/
theorem C8_literal_step_rules_witness :
    _expr_to_parts "5/2" = .ok ("5", 2) ∧
    (_parse_part "5/2" FIELD_RANGES_minutes []).isOk = false ∧
    _expr_to_parts "5" = .ok ("5", 1) ∧
    _parse_part "5" FIELD_RANGES_minutes [] = .ok [5] := by
  refine ⟨rfl, ?_, rfl, ?_⟩
  · obtain ⟨m, hm⟩ :=
      C8_literal_step_rules.1 "5/2" "5" 2 FIELD_RANGES_minutes [] rfl rfl (by decide)
    rw [hm]; rfl
  · exact C8_literal_step_rules.2 "5" "5" FIELD_RANGES_minutes [] rfl rfl
      (by decide) (by decide)

/-- C9: `parse` is total — on every input string it either returns a schedule
or fails with the single normalized `InvalidExpression` message built from
the full expression; tokens with repeated separators, empty sub-tokens,
negative numbers and non-numeric text all fall into the same normalized
failure. -/
theorem C9_parse_total_normalized :
    (∀ e : String, (∃ sch, parse e = .ok sch) ∨
        parse e = .error (_invalid_cron_expression e)) ∧
    parse "1/2/3 2-3-4 ,, -5 abc" =
      .error (_invalid_cron_expression "1/2/3 2-3-4 ,, -5 abc") := by
  constructor
  · intro e
    cases hp : parse e with
    | ok sch => exact .inl ⟨sch, rfl⟩
    | error m =>
      right
      rw [parse_error_msg e m hp]
  · rfl

set_option maxRecDepth 8000 in
/-- C10: symbolic alias resolution is case-sensitive: any base token that is
not an exact key of the alias table (and is not a digit literal, `*`, or a
range) is rejected, and the lowercase / mixed-case spellings `jan` and `Sun`
are not keys, so expressions using them fail while the exact uppercase
spellings succeed. -/
theorem C10_alias_case_sensitive :
    (∀ (s : String) (allowed : List Int) (tm : List (String × Int)),
        tm.lookup s = none → isDigits s = false → s ≠ "*" →
        pyContainsChar s '-' = false → pyContainsChar s '/' = false →
        ∃ m, _parse_part s allowed tm = .error m) ∧
    MONTH_NAME_TO_INDEX.lookup "jan" = none ∧
    DAY_NAME_TO_INDEX.lookup "Sun" = none ∧
    parse "* * * jan *" = .error (_invalid_cron_expression "* * * jan *") ∧
    parse "* * * * Sun" = .error (_invalid_cron_expression "* * * * Sun") ∧
    parse "* * * JAN *" = .ok ⟨FIELD_RANGES_minutes, FIELD_RANGES_hours,
      FIELD_RANGES_day_of_month, [1], FIELD_RANGES_day_of_week⟩ ∧
    parse "* * * * SUN" = .ok ⟨FIELD_RANGES_minutes, FIELD_RANGES_hours,
      FIELD_RANGES_day_of_month, FIELD_RANGES_month, [0]⟩ := by
  refine ⟨?_, rfl, rfl, rfl, rfl, rfl, rfl⟩
  intro s allowed tm hlk hd hstar hcont hcsl
  apply exists_error_of_isOk_false
  have hep : _expr_to_parts s = .ok (s, 1) := by
    unfold _expr_to_parts
    rw [if_neg (by rw [hcsl]; exact Bool.false_ne_true)]
  unfold _parse_part
  rw [hep]
  dsimp only
  by_cases hlen : allowed.length ≤ 1
  · rw [if_pos hlen]; rfl
  · rw [if_neg hlen]
    have hsub : aliasSub tm s = s := by unfold aliasSub; rw [hlk]
    rw [hsub]
    rw [if_neg (by rw [hd]; exact Bool.false_ne_true)]
    rw [if_neg (by simp [hstar])]
    rw [if_neg (by rw [hcont]; exact Bool.false_ne_true)]
    rfl

/-- Witness for C10: the lowercase month alias `jan` is rejected over the
month range with its alias table. -/
theorem C10_alias_case_sensitive_witness :
    MONTH_NAME_TO_INDEX.lookup "jan" = none ∧
    (_parse_part "jan" FIELD_RANGES_month MONTH_NAME_TO_INDEX).isOk = false := by
  refine ⟨rfl, ?_⟩
  obtain ⟨m, hm⟩ := C10_alias_case_sensitive.1 "jan" FIELD_RANGES_month
    MONTH_NAME_TO_INDEX rfl rfl (by decide) rfl rfl
  rw [hm]; rfl

set_option maxRecDepth 8000 in
/-- C1 counterexample: the expression `20-10 * * * *` (a reversed minute
range) parses successfully, yet its minute field is the empty tuple — a
successful parse can yield an empty field. -/
theorem C1_counterexample :
    parse "20-10 * * * *" = .ok ⟨[], FIELD_RANGES_hours, FIELD_RANGES_day_of_month,
      FIELD_RANGES_month, FIELD_RANGES_day_of_week⟩ := by
  rfl

/-- C1 (amended): for every expression on which `parse` succeeds, each of the
five fields of the returned schedule is non-empty unless every
comma-separated sub-token of that field is a reversed range (`start-end` with
`end < start`); equivalently, an empty field forces all of its sub-tokens to
be reversed ranges. -/
theorem C1_empty_field_forces_reversed_ranges (e : String) (sch : CronSchedule)
    (h : parse e = .ok sch) :
    (sch.minute = [] →
      ∀ p ∈ pySplitOnChar ',' ((pySplitWs e).getD 0 ""), isReversedRange p [] = true) ∧
    (sch.hour = [] →
      ∀ p ∈ pySplitOnChar ',' ((pySplitWs e).getD 1 ""), isReversedRange p [] = true) ∧
    (sch.day_of_month = [] →
      ∀ p ∈ pySplitOnChar ',' ((pySplitWs e).getD 2 ""), isReversedRange p [] = true) ∧
    (sch.month = [] →
      ∀ p ∈ pySplitOnChar ',' ((pySplitWs e).getD 3 ""),
        isReversedRange p MONTH_NAME_TO_INDEX = true) ∧
    (sch.day_of_week = [] →
      ∀ p ∈ pySplitOnChar ',' ((pySplitWs e).getD 4 ""),
        isReversedRange p DAY_NAME_TO_INDEX = true) := by
  obtain ⟨mi, hr, dm, mo, dw, hsp, h1, h2, h3, h4, h5⟩ := parse_ok_inv e sch h
  rw [hsp]
  refine ⟨?_, ?_, ?_, ?_, ?_⟩
  · intro hnil
    rw [hnil] at h1
    exact _parse_expression_ok_nil mi FIELD_RANGES_minutes [] (by decide) h1
  · intro hnil
    rw [hnil] at h2
    exact _parse_expression_ok_nil hr FIELD_RANGES_hours [] (by decide) h2
  · intro hnil
    rw [hnil] at h3
    exact _parse_expression_ok_nil dm FIELD_RANGES_day_of_month [] (by decide) h3
  · intro hnil
    rw [hnil] at h4
    exact _parse_expression_ok_nil mo FIELD_RANGES_month MONTH_NAME_TO_INDEX
      (by decide) h4
  · intro hnil
    rw [hnil] at h5
    exact _parse_expression_ok_nil dw FIELD_RANGES_day_of_week DAY_NAME_TO_INDEX
      (by decide) h5

set_option maxRecDepth 8000 in
/-- Witness for the amended C1 at `20-10 * * * *`: the parse succeeds with an
empty minute field and its only minute sub-token is indeed a reversed range. -/
theorem C1_empty_field_witness :
    parse "20-10 * * * *" = .ok ⟨[], FIELD_RANGES_hours, FIELD_RANGES_day_of_month,
      FIELD_RANGES_month, FIELD_RANGES_day_of_week⟩ ∧
    isReversedRange "20-10" [] = true := by
  refine ⟨rfl, ?_⟩
  exact (C1_empty_field_forces_reversed_ranges "20-10 * * * *"
      ⟨[], FIELD_RANGES_hours, FIELD_RANGES_day_of_month, FIELD_RANGES_month,
        FIELD_RANGES_day_of_week⟩ rfl).1 rfl "20-10"
    (by show "20-10" ∈ ["20-10"]; exact List.mem_singleton.mpr rfl)

/-- C6 counterexample: with the hour field covering all 24 hours and a single
minute value 5, the time phrase is `"Every minute"`, not a phrase of the form
`"At {HH:MM} every hour"` (it does not even start with `"At "`), and the full
explanation of `5 * * * *` is `"Every minute."`. -/
theorem C6_counterexample :
    explain "5 * * * *" = .ok "Every minute." ∧
    _summarize_time [5] FIELD_RANGES_hours = "Every minute" ∧
    pyStartsWith (_summarize_time [5] FIELD_RANGES_hours) "At " = false := by
  exact ⟨rfl, rfl, rfl⟩

/-- C6 (amended): for every schedule whose hour field covers the entire
allowed hour range and whose minute field has exactly one value, the time
phrase is `"Every minute"`: the one-element minute tuple counts as contiguous,
so the contiguity branch shadows the dedicated single-minute branch (which
would have produced `"At {MM} every hour"` with only the zero-padded minute,
not `"At {HH:MM} every hour"`). -/
theorem C6_single_minute_full_hours (m : Int) :
    _summarize_time [m] FIELD_RANGES_hours = "Every minute" := by
  rfl

set_option maxRecDepth 8000 in
/-- C7: the expression `15-30 10-12 * * 5` is explained as exactly
`"Every minute between 10:15 and 12:30 on Friday."`. -/
theorem C7_contiguous_block_explanation :
    explain "15-30 10-12 * * 5" =
      .ok "Every minute between 10:15 and 12:30 on Friday." := by
  rfl
